import Mathlib

/-!
Verification of the autonomous-incident-commander workflow core.

Shallow embedding conventions used throughout this file:
* Python `str` values are embedded as `List Char`.
* A Python function that may raise is embedded as a function into
  `Except PyErr _`; a `try/except` block is an explicit `match` on that
  `Except` value.  `.error` therefore means "an exception escapes".
* External collaborators (the Tavily research backend, the Groq chat
  backend, the filesystem, `difflib`) are parameters: records of functions
  supplied by the caller of the embedded operation.  Successive calls to a
  polling endpoint are modelled by indexing the poll function with the call
  number, which plays the role of external time.
* Python float literals (0.5, 0.85, probabilities) are embedded as `ℚ`.
* `json.loads` is embedded by the executable recursive-descent reader
  `jsonLoads` below over the JSON grammar (value, object, array, string
  with escapes, number, true/false/null, whitespace); a parse failure is
  `none`, matching a raised `JSONDecodeError`.  Numbers keep their lexeme,
  since no code under verification inspects a parsed numeric value.
-/

/-- Error values carried by embedded Python exceptions: the message text. -/
abbrev PyErr : Type := List Char

/-- The left-brace character. -/
def lbrace : Char := '\x7b'

/-- The right-brace character. -/
def rbrace : Char := '\x7d'

/-- JSON values as produced by the embedded `json.loads`.  Object fields keep
insertion order, as Python dicts do; numbers keep their source lexeme. -/
inductive JVal where
  | null : JVal
  | bool (b : Bool) : JVal
  | num (raw : List Char) : JVal
  | str (s : List Char) : JVal
  | arr (items : List JVal) : JVal
  | obj (fields : List (List Char × JVal)) : JVal
deriving Repr

/-- JSON whitespace characters. -/
def jWs (c : Char) : Bool := c == ' ' || c == '\t' || c == '\n' || c == '\r'

/-- Drop leading JSON whitespace. -/
def skipWs (cs : List Char) : List Char := cs.dropWhile jWs

/-- Value of one hexadecimal digit. -/
def hexVal (c : Char) : Option Nat :=
  if '0' ≤ c ∧ c ≤ '9' then some (c.toNat - '0'.toNat)
  else if 'a' ≤ c ∧ c ≤ 'f' then some (c.toNat - 'a'.toNat + 10)
  else if 'A' ≤ c ∧ c ≤ 'F' then some (c.toNat - 'A'.toNat + 10)
  else none

/-- Decoding of a single-character JSON escape. -/
def escChar (e : Char) : Option Char :=
  if e = '"' then some '"'
  else if e = '\\' then some '\\'
  else if e = '/' then some '/'
  else if e = 'b' then some (Char.ofNat 8)
  else if e = 'f' then some (Char.ofNat 12)
  else if e = 'n' then some '\n'
  else if e = 'r' then some '\r'
  else if e = 't' then some '\t'
  else none

/-- Body of a JSON string after the opening quote: the decoded characters and
the remaining input after the closing quote.  Unescaped control characters
are rejected, as Python's strict `json.loads` rejects them. -/
def parseStrBody (cs : List Char) : Option (List Char × List Char) :=
  match cs with
  | [] => none
  | c :: rest =>
    if c = '"' then some ([], rest)
    else if c = '\\' then
      match rest with
      | [] => none
      | e :: rest2 =>
        if e = 'u' then
          match rest2 with
          | h1 :: h2 :: h3 :: h4 :: rest3 => do
            let a ← hexVal h1
            let b ← hexVal h2
            let c2 ← hexVal h3
            let d ← hexVal h4
            let p ← parseStrBody rest3
            pure (Char.ofNat (((a * 16 + b) * 16 + c2) * 16 + d) :: p.1, p.2)
          | _ => none
        else do
          let ec ← escChar e
          let p ← parseStrBody rest2
          pure (ec :: p.1, p.2)
    else if c.toNat < 32 then none
    else do
      let p ← parseStrBody rest
      pure (c :: p.1, p.2)

/-- Longest digit prefix and the rest. -/
def lexDigits (cs : List Char) : List Char × List Char :=
  (cs.takeWhile Char.isDigit, cs.dropWhile Char.isDigit)

/-- Optional fraction part of a JSON number. -/
def lexFrac (cs : List Char) : Option (List Char × List Char) :=
  match cs with
  | c :: r =>
    if c = '.' then
      match lexDigits r with
      | ([], _) => none
      | (ds, r2) => some ('.' :: ds, r2)
    else some ([], cs)
  | [] => some ([], cs)

/-- Optional exponent part of a JSON number. -/
def lexExp (cs : List Char) : Option (List Char × List Char) :=
  match cs with
  | c :: r =>
    if c = 'e' ∨ c = 'E' then
      let sr := match r with
        | s :: r2 => if s = '+' ∨ s = '-' then ([s], r2) else (([] : List Char), r)
        | [] => ([], r)
      match lexDigits sr.2 with
      | ([], _) => none
      | (ds, r2) => some (c :: sr.1 ++ ds, r2)
    else some ([], cs)
  | [] => some ([], cs)

/-- Lexing of a JSON number (`-? int frac? exp?`, no leading zeros):
its lexeme and the remaining input. -/
def lexNumber (cs : List Char) : Option (List Char × List Char) :=
  let nr := match cs with
    | c :: r => if c = '-' then ([c], r) else (([] : List Char), cs)
    | [] => ([], cs)
  match lexDigits nr.2 with
  | ([], _) => none
  | (ds, r1) =>
    if ds.head? = some '0' ∧ ds.length ≠ 1 then none
    else
      match lexFrac r1 with
      | none => none
      | some (fs, r2) =>
        match lexExp r2 with
        | none => none
        | some (es, r3) => some (nr.1 ++ ds ++ fs ++ es, r3)

/-- Insertion of a field into an object under Python-dict semantics: an
existing key keeps its position and gets the new value, a new key is
appended. -/
def objInsert (fs : List (List Char × JVal)) (k : List Char) (v : JVal) :
    List (List Char × JVal) :=
  if fs.any (fun p => p.1 == k) then
    fs.map (fun p => if p.1 == k then (k, v) else p)
  else fs ++ [(k, v)]

mutual

/-- Recursive-descent JSON value reader (fuel-bounded). -/
def parseVal (fuel : Nat) (cs : List Char) : Option (JVal × List Char) :=
  match fuel with
  | 0 => none
  | f + 1 =>
    match skipWs cs with
    | [] => none
    | c :: rest =>
      if c = lbrace then parseObj f rest
      else if c = '[' then parseArr f rest
      else if c = '"' then (parseStrBody rest).map (fun p => (JVal.str p.1, p.2))
      else if c = 't' then
        match rest with
        | 'r' :: 'u' :: 'e' :: r => some (JVal.bool true, r)
        | _ => none
      else if c = 'f' then
        match rest with
        | 'a' :: 'l' :: 's' :: 'e' :: r => some (JVal.bool false, r)
        | _ => none
      else if c = 'n' then
        match rest with
        | 'u' :: 'l' :: 'l' :: r => some (JVal.null, r)
        | _ => none
      else if c = '-' ∨ c.isDigit then
        (lexNumber (c :: rest)).map (fun p => (JVal.num p.1, p.2))
      else none
termination_by structural fuel

/-- Object reader, entered after the opening brace. -/
def parseObj (fuel : Nat) (cs : List Char) : Option (JVal × List Char) :=
  match fuel with
  | 0 => none
  | f + 1 =>
    match skipWs cs with
    | [] => none
    | c :: rest =>
      if c = rbrace then some (JVal.obj [], rest)
      else parseFields f [] (c :: rest)
termination_by structural fuel

/-- Field-list reader inside an object literal. -/
def parseFields (fuel : Nat) (acc : List (List Char × JVal)) (cs : List Char) :
    Option (JVal × List Char) :=
  match fuel with
  | 0 => none
  | f + 1 =>
    match skipWs cs with
    | c :: rest =>
      if c = '"' then
        match parseStrBody rest with
        | none => none
        | some (key, r1) =>
          match skipWs r1 with
          | ':' :: r2 =>
            match parseVal f r2 with
            | none => none
            | some (v, r3) =>
              match skipWs r3 with
              | ',' :: r4 => parseFields f (objInsert acc key v) r4
              | cr :: r4 =>
                if cr = rbrace then some (JVal.obj (objInsert acc key v), r4)
                else none
              | [] => none
          | _ => none
      else none
    | [] => none
termination_by structural fuel

/-- Array reader, entered after the opening bracket. -/
def parseArr (fuel : Nat) (cs : List Char) : Option (JVal × List Char) :=
  match fuel with
  | 0 => none
  | f + 1 =>
    match skipWs cs with
    | [] => none
    | c :: rest =>
      if c = ']' then some (JVal.arr [], rest)
      else parseItems f [] (c :: rest)
termination_by structural fuel

/-- Item-list reader inside an array literal. -/
def parseItems (fuel : Nat) (acc : List JVal) (cs : List Char) :
    Option (JVal × List Char) :=
  match fuel with
  | 0 => none
  | f + 1 =>
    match parseVal f cs with
    | none => none
    | some (v, r1) =>
      match skipWs r1 with
      | ',' :: r2 => parseItems f (acc ++ [v]) r2
      | ']' :: r2 => some (JVal.arr (acc ++ [v]), r2)
      | _ => none
termination_by structural fuel

end

/-- The embedded `json.loads`: reads one JSON value and requires the rest of
the input to be whitespace, as Python does ("Extra data" otherwise).
`none` models a raised `JSONDecodeError`. -/
def jsonLoads (cs : List Char) : Option JVal :=
  match parseVal (2 * cs.length + 2) cs with
  | some (v, rest) => if skipWs rest = [] then some v else none
  | none => none

/-- The slice of `t` from its first left brace through its last right brace,
the list-level form of Python's
`t[t.find(lb) : t.rfind(rb) + 1]`: everything before the first left brace
is dropped, then everything after the last right brace of what remains is
dropped.  When the last right brace of `t` lies before its first left brace,
both forms give the empty string. -/
def bracesSlice (t : List Char) : List Char :=
  (((t.dropWhile (fun c => c != lbrace)).reverse.dropWhile
      (fun c => c != rbrace)).reverse)

/-- Embedding of `_extract_json_from_response` (src/src/agent/agents/
commander.py, lines 154-165): when the text contains both braces, parse the
first-brace-to-last-brace slice; any parse failure, and the no-brace case,
give the empty dict.  A successful top-level parse of the slice necessarily
yields an object, since the slice starts with a left brace; the catch-all
match arm is required only for totality. -/
def _extract_json_from_response (t : List Char) : List (List Char × JVal) :=
  if lbrace ∈ t ∧ rbrace ∈ t then
    match jsonLoads (bracesSlice t) with
    | some (JVal.obj o) => o
    | _ => []
  else []

/-- One response of the asynchronous research backend's status endpoint:
the fields of the dict returned by `tavily_client.get_research`, as read by
the poll loops (`.get('status', '')`, `.get('answer', '')`,
`.get('content', '')`, with their defaults absorbed). -/
structure PollResp where
  status : List Char
  answer : List Char
  content : List Char
deriving Repr, DecidableEq

/-- The answer text taken from a completed research response:
`result_response.get('answer', '') or result_response.get('content', '')` —
Python's `or` falls through to `content` when `answer` is empty. -/
def effAnswer (r : PollResp) : List Char :=
  if r.answer = [] then r.content else r.answer

/-- Result of the submit-then-poll protocol's polling phase.  `PollError`
records an exception raised by a poll call, which escapes the loop to the
enclosing handler. -/
inductive PollOutcome where
  | Completed (answer : List Char)
  | Failed
  | TimedOut
  | PollError (e : PyErr)
deriving Repr, DecidableEq

/-- Embedding of the `while time.time() - start_time < max_wait` poll loop
shared by `classify_pattern_with_llm`, `generate_hypothesis_with_llm` and
`generate_possibilities_with_llm` (src/src/agent/agents/commander.py).
Time is discrete: the k-th poll call happens at elapsed time `k * interval`
seconds (each iteration ends with `time.sleep(interval)`, and the poll call
itself is instantaneous in the model).  The second component of the result
is the elapsed time at return.  The fuel argument only realizes
termination: for `0 < interval` it is never exhausted (the loop guard fails
at `k = max_wait` at the latest), so the `fuel = 0` row is unreachable from
`pollLoop`. -/
def pollLoopAux (poll : Nat → Except PyErr PollResp) (max_wait interval : Nat) :
    Nat → Nat → PollOutcome × Nat
  | 0, k => (PollOutcome.TimedOut, k * interval)
  | fuel + 1, k =>
    if k * interval < max_wait then
      match poll k with
      | Except.error e => (PollOutcome.PollError e, k * interval)
      | Except.ok r =>
        if r.status = ("completed").toList then
          (PollOutcome.Completed (effAnswer r), k * interval)
        else if r.status = ("failed").toList then
          (PollOutcome.Failed, k * interval)
        else pollLoopAux poll max_wait interval fuel (k + 1)
    else (PollOutcome.TimedOut, k * interval)

/-- The poll loop started at time zero with adequate fuel. -/
def pollLoop (poll : Nat → Except PyErr PollResp) (max_wait interval : Nat) :
    PollOutcome × Nat :=
  pollLoopAux poll max_wait interval (max_wait + 1) 0

/-- The asynchronous research backend (Tavily) at the boundary described by
the spec: `research` submits a prompt and yields the `request_id` field of
the response (`none` when that field is absent or falsy), `get_research`
polls a submitted job; the `Nat` argument is the index of the poll call,
modelling the advance of external time between calls.  `.error` models a
raised exception. -/
structure TavilyClient where
  research : List Char → Except PyErr (Option (List Char))
  get_research : List Char → Nat → Except PyErr PollResp

/-- The fallback pattern name. -/
def unknownPattern : List Char := ("unknown").toList

/-- `list(result.keys())[0] if result else "unknown"` on an extracted
object. -/
def firstKey (o : List (List Char × JVal)) : List Char :=
  match o with
  | [] => unknownPattern
  | (k, _) :: _ => k

/-- The body of the `try` block of `classify_pattern_with_llm`
(src/src/agent/agents/commander.py, lines 188-225): submit the
classification prompt, poll to a terminal outcome with budget 120 and
interval 2, extract a JSON object from a completed answer; its first key is
the pattern at confidence 0.85, every other outcome gives "unknown" at 0.5.
`.error` is an exception travelling to the enclosing `except`.  Prompt
formatting (`pattern_classification_prompt`) is out of scope per spec §1,
so the prompt is the log text itself. -/
def classify_attempt (c : TavilyClient) (log : List Char) :
    Except PyErr (List Char × ℚ) :=
  match c.research log with
  | Except.error e => Except.error e
  | Except.ok none => Except.ok (unknownPattern, 1/2)
  | Except.ok (some rid) =>
    match pollLoop (c.get_research rid) 120 2 with
    | (PollOutcome.Completed ans, _) =>
      match _extract_json_from_response ans with
      | [] => Except.ok (unknownPattern, 1/2)
      | f :: o => Except.ok (firstKey (f :: o), 17/20)
    | (PollOutcome.Failed, _) => Except.ok (unknownPattern, 1/2)
    | (PollOutcome.TimedOut, _) => Except.ok (unknownPattern, 1/2)
    | (PollOutcome.PollError e, _) => Except.error e

/-- `classify_pattern_with_llm` with a client in hand: the catch-all
`except Exception` converts any exception from the body to the
("unknown", 0.5) default. -/
def classify_run (c : TavilyClient) (log : List Char) : List Char × ℚ :=
  match classify_attempt c log with
  | Except.ok r => r
  | Except.error _ => (unknownPattern, 1/2)

/-- Embedding of `classify_pattern_with_llm(log, tavily_client)`
(src/src/agent/agents/commander.py, lines 172-228).  When no client is
passed, `_get_tavily_client()` runs before the `try` block, so a
construction failure (missing `TAVILY_API_KEY`) escapes the function;
`env_client` is that construction's outcome. -/
def classify_pattern_with_llm (log : List Char) (tavily_client : Option TavilyClient)
    (env_client : Except PyErr TavilyClient) : Except PyErr (List Char × ℚ) :=
  match tavily_client with
  | some c => Except.ok (classify_run c log)
  | none =>
    match env_client with
    | Except.error e => Except.error e
    | Except.ok c => Except.ok (classify_run c log)

/-- One root-cause candidate, as handled by `generate_possibilities_with_llm`;
`probability` is `Option` because the code reads it with
`p.get('probability', 0)`. -/
structure Possibility where
  cause : List Char
  probability : Option ℚ
  severity : List Char
  action : List Char
deriving Repr, DecidableEq

/-- `total_prob = sum(p.get('probability', 0) for p in possibilities)`. -/
def rawProbSum (ps : List Possibility) : ℚ :=
  (ps.map (fun p => p.probability.getD 0)).sum

/-- Embedding of the probability-normalization block of
`generate_possibilities_with_llm` (src/src/agent/agents/commander.py,
lines 343-350): when the raw sum is positive every probability is divided
by it, otherwise the list is returned as received. -/
def normalize_possibilities (ps : List Possibility) : List Possibility :=
  let total_prob := rawProbSum ps
  if 0 < total_prob then
    ps.map (fun p => { p with probability := some (p.probability.getD 0 / total_prob) })
  else ps

/-- The synchronous text-generation backend (a `prompt | llm` chain):
`invoke` yields the response content or raises. -/
structure LLMBackend where
  invoke : List Char → Except PyErr (List Char)

/-- One CloudWatch log event as read by `LogAgent.analyze`
(`e.get('timestamp')`, `e.get('message')`; `none` models an absent key,
rendered as "None" by the f-string). -/
structure LogEvent where
  timestamp : Option (List Char)
  message : Option (List Char)
deriving Repr, DecidableEq

/-- The decoded log payload: `log_payload.get('logEvents', [])` with the
default absorbed. -/
structure LogPayload where
  logEvents : List LogEvent
deriving Repr, DecidableEq

/-- Python's rendering of an optional string in an f-string: `None` prints
as "None". -/
def pyOptStr (o : Option (List Char)) : List Char := o.getD (("None").toList)

/-- `"\n".join(f"(ts): (msg)" for e in log_events)`. -/
def logsText (p : LogPayload) : List Char :=
  List.intercalate (("\n").toList)
    (p.logEvents.map (fun e => pyOptStr e.timestamp ++ (": ").toList ++ pyOptStr e.message))

/-- Is the first list a prefix of the second. -/
def isPre : List Char → List Char → Bool
  | [], _ => true
  | _ :: _, [] => false
  | a :: as, b :: bs => a == b && isPre as bs

/-- Index of the first occurrence of `needle` in `hay`. -/
def findSub (needle hay : List Char) : Option Nat :=
  (List.range (hay.length + 1)).find? (fun i => isPre needle (hay.drop i))

/-- Does `needle` occur in `hay` (Python's `in` on strings). -/
def hasSub (needle hay : List Char) : Bool := (findSub needle hay).isSome

/-- Python `str.split(sep)` for a non-empty separator (fuel-bounded scan). -/
def pySplitAux (sep : List Char) : Nat → List Char → List (List Char)
  | 0, s => [s]
  | f + 1, s =>
    match findSub sep s with
    | none => [s]
    | some i => s.take i :: pySplitAux sep f (s.drop (i + sep.length))

/-- Python `str.split(sep)`. -/
def pySplit (sep s : List Char) : List (List Char) := pySplitAux sep (s.length + 1) s

/-- The markdown json fence. -/
def fenceJson : List Char := ("```json").toList

/-- The markdown fence. -/
def fence : List Char := ("```").toList

/-- The code-fence stripping shared by `LogAgent.analyze`,
`DeployAgent.analyze` (and `InvestigationAgent.synthesize`):
`content.split("```json")[1].split("```")[0]` when "```json" occurs,
else the same with "```", else the content unchanged. -/
def stripFences (content : List Char) : List Char :=
  if hasSub fenceJson content then
    (pySplit fence ((pySplit fenceJson content).getD 1 [])).getD 0 []
  else if hasSub fence content then
    (pySplit fence ((pySplit fence content).getD 1 [])).getD 0 []
  else content

/-- The message of the `JSONDecodeError` raised by a failed `json.loads`. -/
def jsonDecodeErr : PyErr := ("JSONDecodeError").toList

/-- The degraded value `LogAgent.analyze` returns from its `except` block:
the dict with the stringified exception and an empty issues list. -/
def logErrDict (e : PyErr) : JVal :=
  JVal.obj [(("error").toList, JVal.str e), (("issues").toList, JVal.arr [])]

/-- Embedding of `LogAgent.analyze` (src/src/agent/agents/log_agent.py,
lines 19-47): build the logs text, invoke the LLM chain, strip code fences,
parse JSON; any exception inside the `try` (backend or parse) becomes the
degraded dict with an empty issues list. -/
def LogAgent.analyze (b : LLMBackend) (p : LogPayload) : Except PyErr JVal :=
  let logs_text := logsText p
  match (match b.invoke logs_text with
    | Except.error e => Except.error e
    | Except.ok content =>
      match jsonLoads (stripFences content) with
      | some v => Except.ok v
      | none => Except.error jsonDecodeErr) with
  | Except.ok analysis => Except.ok analysis
  | Except.error e => Except.ok (logErrDict e)

/-- The Groq chat backend at its boundary: `create` runs one chat completion
and yields the first choice's message content, or raises. -/
structure GroqClient where
  create : List Char → Except PyErr (List Char)

/-- One entry of `log_json.get("logs", [])` as read by
`classify_cloudwatch_logs_groq`. -/
structure MetricsLogEntry where
  timestamp : Option (List Char)
  message : Option (List Char)
deriving Repr, DecidableEq

/-- The hard-coded classification used when a Groq response fails to parse. -/
def metricsFallbackClassification : JVal :=
  JVal.obj
    [ (("severity").toList, JVal.str (("UNKNOWN").toList)),
      (("category").toList, JVal.str (("UNKNOWN").toList)),
      (("action_required").toList, JVal.str (("INVESTIGATE").toList)),
      (("confidence").toList, JVal.num (("0.0").toList)),
      (("reason").toList, JVal.str (("Failed to parse Groq response").toList)) ]

/-- One element of the results list built by `classify_cloudwatch_logs_groq`. -/
structure MetricsResultEntry where
  timestamp : Option (List Char)
  message : Option (List Char)
  classification : JVal

/-- `f'CloudWatch log message:\n"(message)"'` with the `.get("message", "")`
default. -/
def metricsUserPrompt (log : MetricsLogEntry) : List Char :=
  ("CloudWatch log message:\n\"").toList ++ log.message.getD [] ++ ("\"").toList

/-- The per-log loop of `classify_cloudwatch_logs_groq`: each chat completion
runs unguarded (an exception escapes the whole function), only `json.loads`
sits in a `try` whose handler substitutes the fallback classification. -/
def classifyLogsLoop (client : GroqClient) :
    List MetricsLogEntry → List MetricsResultEntry → Except PyErr (List MetricsResultEntry)
  | [], results => Except.ok results
  | log :: rest, results =>
    match client.create (metricsUserPrompt log) with
    | Except.error e => Except.error e
    | Except.ok raw =>
      let classification :=
        match jsonLoads raw with
        | some v => v
        | none => metricsFallbackClassification
      classifyLogsLoop client rest
        (results ++ [{ timestamp := log.timestamp, message := log.message,
                       classification := classification }])

/-- Embedding of `classify_cloudwatch_logs_groq(log_json)`
(src/src/agent/agents/metrics_agent.py, lines 4-55).  `groqCtor` is the
outcome of the unguarded `Groq()` construction (which raises when
`GROQ_API_KEY` is missing); `logs` is `log_json.get("logs", [])`. -/
def classify_cloudwatch_logs_groq (groqCtor : Except PyErr GroqClient)
    (logs : List MetricsLogEntry) : Except PyErr (List MetricsResultEntry) :=
  match groqCtor with
  | Except.error e => Except.error e
  | Except.ok client => classifyLogsLoop client logs []

/-- The deployment task's collaborators: the two Terraform snapshots read
from disk (readlines may raise), the `difflib.unified_diff` text, and the
LLM chain. -/
structure DeployCtx where
  read_tf_files : Except PyErr (List Char × List Char)
  unified_diff : List Char → List Char → List Char
  llm : LLMBackend

/-- Embedding of `DeployAgent.analyze` (src/src/agent/agents/
deploy_agent.py, lines 20-56): a file-read failure returns the bare error
dict; the LLM call and parse sit in a second `try` whose handler returns
the error dict with an empty changes map. -/
def DeployAgent.analyze (ctx : DeployCtx) : Except PyErr JVal :=
  match ctx.read_tf_files with
  | Except.error e => Except.ok (JVal.obj [(("error").toList, JVal.str e)])
  | Except.ok tfs =>
    let changes_text := ctx.unified_diff tfs.1 tfs.2
    match (match ctx.llm.invoke changes_text with
      | Except.error e => Except.error e
      | Except.ok content =>
        match jsonLoads (stripFences content) with
        | some v => Except.ok v
        | none => Except.error jsonDecodeErr) with
    | Except.ok v => Except.ok v
    | Except.error e =>
      Except.ok (JVal.obj [(("error").toList, JVal.str e),
        (("changes").toList, JVal.obj [])])


/-- The log analysis as consumed downstream: the fields model the dict
lookups the consumers perform with their defaults (`.get("issues", [])`);
`error` holds the "error" entry a degraded task writes, which no consumer
reads. -/
structure LogAnalysis where
  issues : List (List Char)
  error : Option (List Char)
deriving Repr, DecidableEq

/-- The metrics analysis as consumed downstream: `.get("alerts", [])` and
`.get("status")` (default `None`). -/
structure MetricsAnalysis where
  alerts : List (List Char)
  status : Option (List Char)
  error : Option (List Char)
deriving Repr, DecidableEq

/-- The deployment analysis as consumed downstream:
`.get("risk_level", "Low")` and the key set of `.get("changes", `{}`)`. -/
structure DeploymentAnalysis where
  risk_level : List Char
  changes : List (List Char)
  error : Option (List Char)
deriving Repr, DecidableEq

/-- The reconciler's output (src/src/agent/graph.py): status, diagnosis and
the three analyses embedded under `details`. -/
structure FinalDiagnosis where
  status : List Char
  diagnosis : List Char
  details : LogAnalysis × MetricsAnalysis × DeploymentAnalysis
deriving Repr, DecidableEq

/-- The suffix appended to the memory diagnosis when the deployment changes
contain `memory_size`. -/
def memorySuffix : List Char :=
  (" likely caused by recent configuration change (memory reduction).").toList

/-- Embedding of `reconcile_findings` (src/src/agent/graph.py, lines 33-54):
Python's `in` on the issues and alerts *lists* is exact element membership;
the memory-size suffix check runs only inside the memory branch. -/
def reconcile_findings (la : LogAnalysis) (ma : MetricsAnalysis)
    (da : DeploymentAnalysis) : FinalDiagnosis :=
  let diagnosis :=
    if ("out of memory").toList ∈ la.issues ∨ ("MemoryUsed").toList ∈ ma.alerts then
      let d := ("Potential Memory Exhaustion").toList
      if ("memory_size").toList ∈ da.changes then d ++ memorySuffix else d
    else ("Unknown Issue").toList
  { status := ("Investigation Complete").toList
    diagnosis := diagnosis
    details := (la, ma, da) }

/-- `str(issue).lower()` for a string issue. -/
def lowerStr (s : List Char) : List Char := s.map Char.toLower

/-- Does the lowercased text mention the given keyword (Python's
`kw in str(x).lower()`). -/
def mentions (kw : List Char) (s : List Char) : Bool := hasSub kw (lowerStr s)

/-- The issues list and severity accumulated by the three rule blocks of
`InvestigationAgent._fallback_synthesis` (src/src/agent/agents/
investigation_agent.py, lines 136-162), in source order: log issues first
(memory/error keywords raise severity to High), then metric alerts
(critical status raises to Critical, degraded status to High when not
already Critical), then deployment risk (High/Medium risk raises Low to
Medium and appends a synthetic issue). -/
def fb_issues_severity (la : LogAnalysis) (ma : MetricsAnalysis)
    (da : DeploymentAnalysis) : List (List Char) × List Char :=
  let issues0 : List (List Char) := []
  let severity0 := ("Low").toList
  let log_issues := la.issues
  let issues1 := if log_issues ≠ [] then issues0 ++ log_issues else issues0
  let severity1 :=
    if log_issues ≠ [] ∧
        log_issues.any (fun i => mentions (("memory").toList) i ||
          mentions (("error").toList) i) then
      ("High").toList
    else severity0
  let metrics_alerts := ma.alerts
  let issues2 :=
    if metrics_alerts ≠ [] then
      issues1 ++ metrics_alerts.map (fun a => ("Metric Alert: ").toList ++ a)
    else issues1
  let severity2 :=
    if metrics_alerts ≠ [] then
      if ma.status = some (("critical").toList) then ("Critical").toList
      else if ma.status = some (("degraded").toList) ∧
          severity1 ≠ ("Critical").toList then ("High").toList
      else severity1
    else severity1
  let deploy_risk := da.risk_level
  let riskEscalates := deploy_risk = ("High").toList ∨ deploy_risk = ("Medium").toList
  let severity3 :=
    if riskEscalates ∧ severity2 = ("Low").toList then ("Medium").toList
    else severity2
  let issues3 :=
    if riskEscalates then
      issues2 ++ [("Recent deployment changes with ").toList ++ deploy_risk ++
        (" risk").toList]
    else issues2
  (issues3, severity3)

/-- The root-cause selection of `_fallback_synthesis` (lines 164-170): a
memory mention anywhere in the collected issues picks a memory-exhaustion
statement, refined by the presence of a `memory_size` deployment change;
otherwise the generic manual-investigation statement. -/
def fb_root_cause (issues : List (List Char)) (deploy_changes : List (List Char)) :
    List Char :=
  if issues.any (fun i => mentions (("memory").toList) i) then
    if ("memory_size").toList ∈ deploy_changes then
      ("Memory exhaustion likely caused by recent memory_size reduction in deployment").toList
    else
      ("Memory exhaustion detected - check for memory leaks or increased load").toList
  else ("Unable to determine root cause - manual investigation required").toList

/-- The report built by `_fallback_synthesis` (lines 172-194). -/
structure FallbackReport where
  status : List Char
  severity : List Char
  root_cause : List Char
  diagnosis : List Char
  correlation : List Char
  affected_components : List (List Char)
  recommendations : List (List Char × List Char × List Char)
  confidence_level : List Char
  additional_investigation_needed : List (List Char)
  fallback_reason : List Char
  supporting_evidence : LogAnalysis × MetricsAnalysis × DeploymentAnalysis
deriving Repr, DecidableEq

/-- Embedding of `InvestigationAgent._fallback_synthesis`
(src/src/agent/agents/investigation_agent.py, lines 128-194). -/
def _fallback_synthesis (la : LogAnalysis) (ma : MetricsAnalysis)
    (da : DeploymentAnalysis) (error : List Char) : FallbackReport :=
  let is := fb_issues_severity la ma da
  { status := ("Investigation Complete (Fallback Mode)").toList
    severity := is.2
    root_cause := fb_root_cause is.1 da.changes
    diagnosis := ("Detected ").toList ++ Nat.toDigits 10 is.1.length ++
      (" issue(s) across log, metrics, and deployment analysis").toList
    correlation := ("Automated correlation failed - manual review recommended").toList
    affected_components := [("Unknown - requires manual investigation").toList]
    recommendations := [(("Immediate").toList,
      ("Review the raw findings in supporting_evidence").toList,
      ("LLM synthesis failed, manual analysis needed").toList)]
    confidence_level := ("Low").toList
    additional_investigation_needed := [("Full manual review required").toList]
    fallback_reason := error
    supporting_evidence := (la, ma, da) }

/-- The shared input of the metrics scenario in spec §8: a mapping with
percentage strings for CPU and memory utilization. -/
structure MetricsInput where
  cpu_utilization : List Char
  memory_utilization : List Char
deriving Repr, DecidableEq

/-- Numeric value of a percentage string such as "95%". -/
def parsePercent (s : List Char) : Nat :=
  (s.takeWhile Char.isDigit).foldl (fun acc c => 10 * acc + (c.toNat - '0'.toNat)) 0

/-- Modelled from the spec: the `MetricsAgent` class that `graph.py` imports
from `agents.metrics_agent` is absent from src/src/agent/agents/
metrics_agent.py (only `classify_cloudwatch_logs_groq` is there), so its
`analyze` method is modelled from spec §4.3 and the §8 scenario: a backend
failure is caught locally and converted to a Degraded result — here the
record with a `degraded` status, the attached error, and a synthetic
"High MemoryUsed detected (Fallback)" alert when the input reports high
(at least 90 percent) memory utilization. -/
def MetricsAgent.analyze (backend : Except PyErr MetricsAnalysis)
    (input : MetricsInput) : MetricsAnalysis :=
  match backend with
  | Except.ok a => a
  | Except.error e =>
    { alerts :=
        if 90 ≤ parsePercent input.memory_utilization then
          [("High MemoryUsed detected (Fallback)").toList]
        else []
      status := some (("degraded").toList)
      error := some e }

theorem list_sum_map_div (l : List ℚ) (T : ℚ) :
    (l.map (fun x => x / T)).sum = l.sum / T := by
  induction l with
  | nil => simp
  | cons a t ih => simp [ih, add_div]

theorem rawProbSum_map_norm (ps : List Possibility) (T : ℚ) :
    rawProbSum (ps.map (fun p =>
      { p with probability := some (p.probability.getD 0 / T) })) =
    rawProbSum ps / T := by
  unfold rawProbSum
  rw [List.map_map]
  have hcomp : ((fun p : Possibility => p.probability.getD 0) ∘ fun p : Possibility =>
      { p with probability := some (p.probability.getD 0 / T) }) =
      (fun x : ℚ => x / T) ∘ fun p : Possibility => p.probability.getD 0 := rfl
  rw [hcomp, ← List.map_map, list_sum_map_div]

/-- C4: for every possibilities list received from a completed research
answer, if the raw probabilities sum to a positive value then each entry's
probability is replaced by itself divided by the raw sum and the normalized
probabilities sum to 1.0 within 1e-6 (in the rational model, exactly 1);
if the raw sum is zero the probabilities are left untouched. -/
theorem thm_C4_normalization (ps : List Possibility) :
    (0 < rawProbSum ps →
      normalize_possibilities ps =
        ps.map (fun p =>
          { p with probability := some (p.probability.getD 0 / rawProbSum ps) }) ∧
      |rawProbSum (normalize_possibilities ps) - 1| ≤ 1 / 1000000) ∧
    (rawProbSum ps = 0 → normalize_possibilities ps = ps) := by
  constructor
  · intro h
    have hmap : normalize_possibilities ps =
        ps.map (fun p =>
          { p with probability := some (p.probability.getD 0 / rawProbSum ps) }) := by
      simp only [normalize_possibilities]
      rw [if_pos h]
    refine ⟨hmap, ?_⟩
    have hsum : rawProbSum (normalize_possibilities ps) = 1 := by
      rw [hmap, rawProbSum_map_norm]
      exact div_self (ne_of_gt h)
    rw [hsum]
    norm_num
  · intro h
    simp only [normalize_possibilities]
    rw [h]
    simp

theorem wit_C4_normalization :
    0 < rawProbSum
      [{ cause := ("cold start").toList, probability := some (1/2),
         severity := ("low").toList, action := ("warm").toList },
       { cause := ("oom").toList, probability := some (3/2),
         severity := ("high").toList, action := ("raise memory").toList }] ∧
    |rawProbSum (normalize_possibilities
      [{ cause := ("cold start").toList, probability := some (1/2),
         severity := ("low").toList, action := ("warm").toList },
       { cause := ("oom").toList, probability := some (3/2),
         severity := ("high").toList, action := ("raise memory").toList }]) - 1| ≤
      1 / 1000000 := by
  refine ⟨by norm_num [rawProbSum], ?_⟩
  exact (thm_C4_normalization _).1 (by norm_num [rawProbSum]) |>.2

/-- C8: when the metrics task receives cpu 10 percent and memory 95 percent
and its backend is unavailable, it returns a Degraded result (degraded
status, attached error) whose alerts list contains the synthetic
"High MemoryUsed detected (Fallback)" entry.  Settled against
`MetricsAgent.analyze`, which is modelled from the spec because the
`MetricsAgent` class is absent from src. -/
theorem thm_C8_metrics_fallback_alert :
    ("High MemoryUsed detected (Fallback)").toList ∈
      (MetricsAgent.analyze (Except.error (("backend unavailable").toList))
        { cpu_utilization := ("10%").toList,
          memory_utilization := ("95%").toList }).alerts ∧
    (MetricsAgent.analyze (Except.error (("backend unavailable").toList))
        { cpu_utilization := ("10%").toList,
          memory_utilization := ("95%").toList }).status =
      some (("degraded").toList) ∧
    (MetricsAgent.analyze (Except.error (("backend unavailable").toList))
        { cpu_utilization := ("10%").toList,
          memory_utilization := ("95%").toList }).error =
      some (("backend unavailable").toList) := by
  refine ⟨?_, rfl, rfl⟩
  rw [show (MetricsAgent.analyze (Except.error (("backend unavailable").toList))
        { cpu_utilization := ("10%").toList,
          memory_utilization := ("95%").toList }).alerts =
      [("High MemoryUsed detected (Fallback)").toList] from rfl]
  exact List.mem_singleton.mpr rfl

/-- C9: the reconciler sets the diagnosis to "Potential Memory Exhaustion"
(extended with the configuration-change suffix exactly when "memory_size"
is a key of the deployment changes) if and only if the exact string
"out of memory" is an element of the log issues list or the exact string
"MemoryUsed" is an element of the metrics alerts list — exact list
membership — and otherwise sets it to "Unknown Issue", always embedding
all three analyses unmodified under details. -/
theorem thm_C9_reconciler (la : LogAnalysis) (ma : MetricsAnalysis)
    (da : DeploymentAnalysis) :
    ((reconcile_findings la ma da).diagnosis =
        ("Potential Memory Exhaustion").toList ++
          (if ("memory_size").toList ∈ da.changes then memorySuffix else []) ↔
      (("out of memory").toList ∈ la.issues ∨
        ("MemoryUsed").toList ∈ ma.alerts)) ∧
    (¬(("out of memory").toList ∈ la.issues ∨
        ("MemoryUsed").toList ∈ ma.alerts) →
      (reconcile_findings la ma da).diagnosis = ("Unknown Issue").toList) ∧
    (reconcile_findings la ma da).details = (la, ma, da) := by
  refine ⟨⟨fun hdiag => ?_, fun hcond => ?_⟩, fun hncond => ?_, rfl⟩
  · by_contra hncond
    have hd : (reconcile_findings la ma da).diagnosis = ("Unknown Issue").toList := by
      simp only [reconcile_findings]
      rw [if_neg hncond]
    rw [hd] at hdiag
    by_cases hms : ("memory_size").toList ∈ da.changes
    · rw [if_pos hms] at hdiag
      exact absurd hdiag (by decide)
    · rw [if_neg hms] at hdiag
      exact absurd hdiag (by decide)
  · simp only [reconcile_findings]
    rw [if_pos hcond]
    by_cases hms : ("memory_size").toList ∈ da.changes
    · rw [if_pos hms, if_pos hms]
    · rw [if_neg hms, if_neg hms, List.append_nil]
  · simp only [reconcile_findings]
    rw [if_neg hncond]

theorem wit_C9_reconciler :
    (reconcile_findings
      { issues := [("out of memory").toList], error := none }
      { alerts := [], status := none, error := none }
      { risk_level := ("Low").toList, changes := [("memory_size").toList],
        error := none }).diagnosis =
      ("Potential Memory Exhaustion").toList ++ memorySuffix := by
  have h := (thm_C9_reconciler
    { issues := [("out of memory").toList], error := none }
    { alerts := [], status := none, error := none }
    { risk_level := ("Low").toList, changes := [("memory_size").toList],
      error := none }).1.mpr (Or.inl (List.mem_singleton.mpr rfl))
  simpa using h

/-- A poll response with a terminal status. -/
def isTerm (r : PollResp) : Prop :=
  r.status = ("completed").toList ∨ r.status = ("failed").toList

theorem le_mul_of_pos (m iv : Nat) (hiv : 0 < iv) : m ≤ m * iv := by
  calc m = m * 1 := (Nat.mul_one m).symm
  _ ≤ m * iv := Nat.mul_le_mul_left m hiv

theorem pollAux_time_le (poll : Nat → Except PyErr PollResp) (mw iv : Nat) :
    ∀ fuel k, mw < fuel + k → k * iv ≤ mw + iv →
    (pollLoopAux poll mw iv fuel k).2 ≤ mw + iv := by
  intro fuel
  induction fuel with
  | zero =>
    intro k _ h2
    simpa [pollLoopAux] using h2
  | succ f ih =>
    intro k h1 h2
    simp only [pollLoopAux]
    by_cases hg : k * iv < mw
    · rw [if_pos hg]
      cases hpoll : poll k with
      | error e => simp; omega
      | ok r =>
        dsimp only
        by_cases hc : r.status = ("completed").toList
        · rw [if_pos hc]; simp; omega
        · rw [if_neg hc]
          by_cases hf : r.status = ("failed").toList
          · rw [if_pos hf]; simp; omega
          · rw [if_neg hf]
            refine ih (k + 1) (by omega) ?_
            rw [Nat.succ_mul]
            omega
    · rw [if_neg hg]
      simpa using h2

theorem pollAux_reaches_terminal (poll : Nat → Except PyErr PollResp)
    (mw iv : Nat) (hiv : 0 < iv)
    (hok : ∀ j, ∃ r, poll j = Except.ok r) :
    ∀ fuel k m r, mw < fuel + k → k ≤ m → m * iv < mw →
    poll m = Except.ok r → isTerm r →
    (∀ j rj, k ≤ j → j < m → poll j = Except.ok rj → ¬ isTerm rj) →
    pollLoopAux poll mw iv fuel k =
      (if r.status = ("completed").toList then PollOutcome.Completed (effAnswer r)
       else PollOutcome.Failed, m * iv) := by
  intro fuel
  induction fuel with
  | zero =>
    intro k m r h1 hkm hwin _ _ _
    exfalso
    have hm : m ≤ m * iv := le_mul_of_pos m iv hiv
    omega
  | succ f ih =>
    intro k m r h1 hkm hwin hpm hterm hmin
    simp only [pollLoopAux]
    rcases Nat.eq_or_lt_of_le hkm with heq | hlt
    · subst heq
      rw [if_pos hwin, hpm]
      dsimp only
      rcases hterm with hc | hf
      · rw [if_pos hc, if_pos hc]
      · have hc : r.status ≠ ("completed").toList := by
          rw [hf]; decide
        rw [if_neg hc, if_pos hf, if_neg hc]
    · have hg : k * iv < mw := by
        have : k * iv ≤ m * iv := Nat.mul_le_mul_right iv (Nat.le_of_lt hlt)
        omega
      rw [if_pos hg]
      obtain ⟨rk, hrk⟩ := hok k
      rw [hrk]
      dsimp only
      have hnt : ¬ isTerm rk := hmin k rk (Nat.le_refl k) hlt hrk
      have hc : rk.status ≠ ("completed").toList := fun h => hnt (Or.inl h)
      have hf : rk.status ≠ ("failed").toList := fun h => hnt (Or.inr h)
      rw [if_neg hc, if_neg hf]
      exact ih (k + 1) m r (by omega) hlt hwin hpm hterm
        (fun j rj hj1 hj2 hrj => hmin j rj (by omega) hj2 hrj)

theorem pollAux_timeout (poll : Nat → Except PyErr PollResp) (mw iv : Nat)
    (hiv : 0 < iv) (hok : ∀ j, ∃ r, poll j = Except.ok r)
    (hnt : ∀ j rj, j * iv < mw → poll j = Except.ok rj → ¬ isTerm rj) :
    ∀ fuel k, mw < fuel + k →
    (pollLoopAux poll mw iv fuel k).1 = PollOutcome.TimedOut ∧
    mw ≤ (pollLoopAux poll mw iv fuel k).2 := by
  intro fuel
  induction fuel with
  | zero =>
    intro k h1
    have hk : k ≤ k * iv := le_mul_of_pos k iv hiv
    constructor
    · simp [pollLoopAux]
    · simp only [pollLoopAux]
      omega
  | succ f ih =>
    intro k h1
    simp only [pollLoopAux]
    by_cases hg : k * iv < mw
    · rw [if_pos hg]
      obtain ⟨rk, hrk⟩ := hok k
      rw [hrk]
      dsimp only
      have hnk := hnt k rk hg hrk
      have hc : rk.status ≠ ("completed").toList := fun h => hnk (Or.inl h)
      have hf : rk.status ≠ ("failed").toList := fun h => hnk (Or.inr h)
      rw [if_neg hc, if_neg hf]
      exact ih (k + 1) (by omega)
    · rw [if_neg hg]
      exact ⟨rfl, by omega⟩

theorem pollAux_outcome_inv (poll : Nat → Except PyErr PollResp) (mw iv : Nat)
    (hiv : 0 < iv) :
    ∀ fuel k out t, mw < fuel + k → pollLoopAux poll mw iv fuel k = (out, t) →
    (∀ a, out = PollOutcome.Completed a →
      ∃ m r, k ≤ m ∧ m * iv < mw ∧ poll m = Except.ok r ∧
        r.status = ("completed").toList ∧ a = effAnswer r ∧ t = m * iv) ∧
    (out = PollOutcome.Failed →
      ∃ m r, k ≤ m ∧ m * iv < mw ∧ poll m = Except.ok r ∧
        r.status = ("failed").toList ∧ t = m * iv) ∧
    (out = PollOutcome.TimedOut →
      ∀ j rj, k ≤ j → j * iv < mw → poll j = Except.ok rj → ¬ isTerm rj) := by
  intro fuel
  induction fuel with
  | zero =>
    intro k out t h1 heq
    simp only [pollLoopAux] at heq
    injection heq with ho ht
    subst ho
    refine ⟨fun a ha => absurd ha (by simp), fun ha => absurd ha (by simp),
      fun _ j rj hj hwin _ => ?_⟩
    exfalso
    have : j ≤ j * iv := le_mul_of_pos j iv hiv
    omega
  | succ f ih =>
    intro k out t h1 heq
    simp only [pollLoopAux] at heq
    by_cases hg : k * iv < mw
    · rw [if_pos hg] at heq
      cases hpoll : poll k with
      | error e =>
        rw [hpoll] at heq
        dsimp only at heq
        injection heq with ho ht
        subst ho
        exact ⟨fun a ha => absurd ha (by simp), fun ha => absurd ha (by simp),
          fun ha => absurd ha (by simp)⟩
      | ok r =>
        rw [hpoll] at heq
        dsimp only at heq
        by_cases hc : r.status = ("completed").toList
        · rw [if_pos hc] at heq
          injection heq with ho ht
          subst ho
          refine ⟨fun a ha => ?_, fun ha => absurd ha (by simp),
            fun ha => absurd ha (by simp)⟩
          have haa : a = effAnswer r := (PollOutcome.Completed.inj ha).symm
          exact ⟨k, r, Nat.le_refl k, hg, hpoll, hc, haa, ht.symm⟩
        · rw [if_neg hc] at heq
          by_cases hf : r.status = ("failed").toList
          · rw [if_pos hf] at heq
            injection heq with ho ht
            subst ho
            exact ⟨fun a ha => absurd ha (by simp),
              fun _ => ⟨k, r, Nat.le_refl k, hg, hpoll, hf, ht.symm⟩,
              fun ha => absurd ha (by simp)⟩
          · rw [if_neg hf] at heq
            have hrec := ih (k + 1) out t (by omega) heq
            refine ⟨fun a ha => ?_, fun ha => ?_, fun ha => ?_⟩
            · obtain ⟨m, rm, hm1, hm2, hm3, hm4, hm5, hm6⟩ := hrec.1 a ha
              exact ⟨m, rm, by omega, hm2, hm3, hm4, hm5, hm6⟩
            · obtain ⟨m, rm, hm1, hm2, hm3, hm4, hm5⟩ := hrec.2.1 ha
              exact ⟨m, rm, by omega, hm2, hm3, hm4, hm5⟩
            · intro j rj hj hwin hrj
              rcases Nat.eq_or_lt_of_le hj with hje | hjl
              · subst hje
                rw [hpoll] at hrj
                injection hrj with hr
                subst hr
                exact fun ht0 => ht0.elim hc hf
              · exact hrec.2.2 ha j rj hjl hwin hrj
    · rw [if_neg hg] at heq
      injection heq with ho ht
      subst ho
      refine ⟨fun a ha => absurd ha (by simp), fun ha => absurd ha (by simp),
        fun _ j rj hj hwin _ => ?_⟩
      exfalso
      have : k * iv ≤ j * iv := Nat.mul_le_mul_right iv hj
      omega

/-- C2: for every invocation of the submit-then-poll protocol in which
submission yielded a job id and every poll call returns a status (no poll
exception), the poll loop returns within `timeout_budget + interval` of
elapsed time; it returns the completed answer as soon as a poll reports
status "completed", the failure outcome as soon as a poll reports "failed",
the timeout outcome once elapsed time exceeds the budget, and never
returns before a terminal status or the timeout (every returned outcome is
justified by the polls actually made). -/
theorem thm_C2_poller (poll : Nat → Except PyErr PollResp) (mw iv : Nat)
    (hiv : 0 < iv) (hok : ∀ j, ∃ r, poll j = Except.ok r) :
    (pollLoop poll mw iv).2 ≤ mw + iv ∧
    (∀ m r, m * iv < mw → poll m = Except.ok r →
      (∀ j rj, j < m → poll j = Except.ok rj → ¬ isTerm rj) →
      (r.status = ("completed").toList →
        pollLoop poll mw iv = (PollOutcome.Completed (effAnswer r), m * iv)) ∧
      (r.status = ("failed").toList →
        pollLoop poll mw iv = (PollOutcome.Failed, m * iv))) ∧
    ((∀ j rj, j * iv < mw → poll j = Except.ok rj → ¬ isTerm rj) →
      (pollLoop poll mw iv).1 = PollOutcome.TimedOut ∧
      mw ≤ (pollLoop poll mw iv).2) ∧
    (∀ a t, pollLoop poll mw iv = (PollOutcome.Completed a, t) →
      ∃ m r, m * iv < mw ∧ poll m = Except.ok r ∧
        r.status = ("completed").toList ∧ a = effAnswer r ∧ t = m * iv) ∧
    (∀ t, pollLoop poll mw iv = (PollOutcome.Failed, t) →
      ∃ m r, m * iv < mw ∧ poll m = Except.ok r ∧
        r.status = ("failed").toList ∧ t = m * iv) ∧
    (∀ t, pollLoop poll mw iv = (PollOutcome.TimedOut, t) →
      ∀ j rj, j * iv < mw → poll j = Except.ok rj → ¬ isTerm rj) := by
  refine ⟨?_, ?_, ?_, ?_, ?_, ?_⟩
  · exact pollAux_time_le poll mw iv (mw + 1) 0 (by omega) (by simp)
  · intro m r hwin hpm hmin
    constructor
    · intro hc
      have h := pollAux_reaches_terminal poll mw iv hiv hok (mw + 1) 0 m r
        (by omega) (Nat.zero_le m) hwin hpm (Or.inl hc)
        (fun j rj _ hj2 hrj => hmin j rj hj2 hrj)
      rw [if_pos hc] at h
      exact h
    · intro hf
      have h := pollAux_reaches_terminal poll mw iv hiv hok (mw + 1) 0 m r
        (by omega) (Nat.zero_le m) hwin hpm (Or.inr hf)
        (fun j rj _ hj2 hrj => hmin j rj hj2 hrj)
      have hc : r.status ≠ ("completed").toList := by
        rw [hf]; decide
      rw [if_neg hc] at h
      exact h
  · intro hnt
    exact pollAux_timeout poll mw iv hiv hok hnt (mw + 1) 0 (by omega)
  · intro a t heq
    obtain ⟨m, rm, _, h2, h3, h4, h5, h6⟩ :=
      (pollAux_outcome_inv poll mw iv hiv (mw + 1) 0 _ t (by omega) heq).1 a rfl
    exact ⟨m, rm, h2, h3, h4, h5, h6⟩
  · intro t heq
    obtain ⟨m, rm, _, h2, h3, h4, h5⟩ :=
      (pollAux_outcome_inv poll mw iv hiv (mw + 1) 0 _ t (by omega) heq).2.1 rfl
    exact ⟨m, rm, h2, h3, h4, h5⟩
  · intro t heq j rj hwin hrj
    exact (pollAux_outcome_inv poll mw iv hiv (mw + 1) 0 _ t (by omega) heq).2.2
      rfl j rj (Nat.zero_le j) hwin hrj

theorem wit_C2_poller :
    pollLoop (fun _ => Except.ok
        { status := ("completed").toList, answer := ("done").toList,
          content := [] }) 120 2 =
      (PollOutcome.Completed (("done").toList), 0) := by
  have h := ((thm_C2_poller (fun _ => Except.ok
      { status := ("completed").toList, answer := ("done").toList,
        content := [] }) 120 2 (by decide) (fun j => ⟨_, rfl⟩)).2.1 0
    { status := ("completed").toList, answer := ("done").toList, content := [] }
    (by decide) rfl (fun j rj hj _ => absurd hj (Nat.not_lt_zero j))).1 rfl
  exact h

/-- C3: for every pattern-classification run with a client in hand, if the
research job reaches status "completed" and extracting a JSON object from
the answer text yields a non-empty object, classification returns that
object's first key as the pattern with confidence exactly 0.85; every
other outcome (submission exception, no job handle, "failed" status, poll
timeout, poll exception, or extraction failure) returns pattern "unknown"
with confidence 0.5. -/
theorem thm_C3_classification (log : List Char) (c : TavilyClient)
    (env : Except PyErr TavilyClient) :
    (∀ e, c.research log = Except.error e →
      classify_pattern_with_llm log (some c) env =
        Except.ok (unknownPattern, 1/2)) ∧
    (c.research log = Except.ok none →
      classify_pattern_with_llm log (some c) env =
        Except.ok (unknownPattern, 1/2)) ∧
    (∀ rid, c.research log = Except.ok (some rid) →
      (∀ ans t,
        pollLoop (c.get_research rid) 120 2 = (PollOutcome.Completed ans, t) →
        (∀ f o, _extract_json_from_response ans = f :: o →
          classify_pattern_with_llm log (some c) env =
            Except.ok (f.1, 17/20)) ∧
        (_extract_json_from_response ans = [] →
          classify_pattern_with_llm log (some c) env =
            Except.ok (unknownPattern, 1/2))) ∧
      (∀ t, pollLoop (c.get_research rid) 120 2 = (PollOutcome.Failed, t) →
        classify_pattern_with_llm log (some c) env =
          Except.ok (unknownPattern, 1/2)) ∧
      (∀ t, pollLoop (c.get_research rid) 120 2 = (PollOutcome.TimedOut, t) →
        classify_pattern_with_llm log (some c) env =
          Except.ok (unknownPattern, 1/2)) ∧
      (∀ e t,
        pollLoop (c.get_research rid) 120 2 = (PollOutcome.PollError e, t) →
        classify_pattern_with_llm log (some c) env =
          Except.ok (unknownPattern, 1/2))) := by
  refine ⟨?_, ?_, ?_⟩
  · intro e he
    simp [classify_pattern_with_llm, classify_run, classify_attempt, he]
  · intro he
    simp [classify_pattern_with_llm, classify_run, classify_attempt, he]
  · intro rid hrid
    refine ⟨?_, ?_, ?_, ?_⟩
    · intro ans t hpol
      constructor
      · intro f o hextr
        simp [classify_pattern_with_llm, classify_run, classify_attempt, hrid,
          hpol, hextr, firstKey]
      · intro hextr
        simp [classify_pattern_with_llm, classify_run, classify_attempt, hrid,
          hpol, hextr]
    · intro t hpol
      simp [classify_pattern_with_llm, classify_run, classify_attempt, hrid, hpol]
    · intro t hpol
      simp [classify_pattern_with_llm, classify_run, classify_attempt, hrid, hpol]
    · intro e t hpol
      simp [classify_pattern_with_llm, classify_run, classify_attempt, hrid, hpol]

theorem wit_C3_classification :
    classify_pattern_with_llm (("some log").toList)
      (some { research := fun _ => Except.ok (some (("r1").toList)),
              get_research := fun _ _ => Except.ok
                { status := ("completed").toList,
                  answer := ("\x7b\"timeout\": \"meaning\"\x7d").toList,
                  content := [] } })
      (Except.error (("unused").toList)) =
    Except.ok ((("timeout").toList), 17/20) := by
  have h := (((thm_C3_classification (("some log").toList)
      { research := fun _ => Except.ok (some (("r1").toList)),
        get_research := fun _ _ => Except.ok
          { status := ("completed").toList,
            answer := ("\x7b\"timeout\": \"meaning\"\x7d").toList,
            content := [] } }
      (Except.error (("unused").toList))).2.2 (("r1").toList) rfl).1
    (("\x7b\"timeout\": \"meaning\"\x7d").toList) 0 rfl).1
    ((("timeout").toList), JVal.str (("meaning").toList)) [] rfl
  exact h

theorem classifyLogsLoop_ok (gc : GroqClient)
    (hcr : ∀ m, ∃ raw, gc.create m = Except.ok raw) :
    ∀ (logs : List MetricsLogEntry) (acc : List MetricsResultEntry),
    ∃ vs, classifyLogsLoop gc logs acc = Except.ok vs := by
  intro logs
  induction logs with
  | nil => intro acc; exact ⟨acc, rfl⟩
  | cons log rest ih =>
    intro acc
    obtain ⟨raw, hraw⟩ := hcr (metricsUserPrompt log)
    simp only [classifyLogsLoop, hraw]
    exact ih _

/-- C1 amended: failure isolation holds for `LogAgent.analyze`,
`DeployAgent.analyze`, and for `classify_pattern_with_llm` whenever a
client is supplied — each returns normally with its degraded default for
every backend behaviour — but `classify_pattern_with_llm` propagates a
client-construction failure when no client is supplied, and
`classify_cloudwatch_logs_groq` isolates only JSON-parse failures: its
runs return normally when every chat completion succeeds, while
construction and submission exceptions escape (see the counterexample). -/
theorem thm_C1_failure_isolation (b : LLMBackend) (p : LogPayload)
    (ctx : DeployCtx) (log : List Char) (c : TavilyClient)
    (env : Except PyErr TavilyClient) (e : PyErr) (gc : GroqClient)
    (logs : List MetricsLogEntry) :
    (∃ v, LogAgent.analyze b p = Except.ok v) ∧
    (∃ v, DeployAgent.analyze ctx = Except.ok v) ∧
    (∃ v, classify_pattern_with_llm log (some c) env = Except.ok v) ∧
    (classify_pattern_with_llm log none (Except.error e) = Except.error e) ∧
    ((∀ m, ∃ raw, gc.create m = Except.ok raw) →
      ∃ vs, classify_cloudwatch_logs_groq (Except.ok gc) logs =
        Except.ok vs) := by
  refine ⟨?_, ?_, ⟨classify_run c log, rfl⟩, rfl, ?_⟩
  · cases hbi : b.invoke (logsText p) with
    | error er => exact ⟨logErrDict er, by simp [LogAgent.analyze, hbi]⟩
    | ok content =>
      cases hjl : jsonLoads (stripFences content) with
      | none =>
        exact ⟨logErrDict jsonDecodeErr, by simp [LogAgent.analyze, hbi, hjl]⟩
      | some v => exact ⟨v, by simp [LogAgent.analyze, hbi, hjl]⟩
  · cases hrf : ctx.read_tf_files with
    | error er =>
      exact ⟨JVal.obj [(("error").toList, JVal.str er)],
        by simp [DeployAgent.analyze, hrf]⟩
    | ok tfs =>
      cases hbi : ctx.llm.invoke (ctx.unified_diff tfs.1 tfs.2) with
      | error er =>
        exact ⟨JVal.obj [(("error").toList, JVal.str er),
          (("changes").toList, JVal.obj [])],
          by simp [DeployAgent.analyze, hrf, hbi]⟩
      | ok content =>
        cases hjl : jsonLoads (stripFences content) with
        | none =>
          exact ⟨JVal.obj [(("error").toList, JVal.str jsonDecodeErr),
            (("changes").toList, JVal.obj [])],
            by simp [DeployAgent.analyze, hrf, hbi, hjl]⟩
        | some v => exact ⟨v, by simp [DeployAgent.analyze, hrf, hbi, hjl]⟩
  · intro hcr
    exact classifyLogsLoop_ok gc hcr logs []

/-- C1 counterexample: the metrics task does not satisfy the claimed
isolation — with a Groq client whose chat completion raises (a submission
exception), `classify_cloudwatch_logs_groq` on a one-entry payload
propagates the exception to its caller instead of returning a degraded
result. -/
theorem cex_C1_metrics_propagates :
    classify_cloudwatch_logs_groq
      (Except.ok { create := fun _ => Except.error (("APIConnectionError").toList) })
      [{ timestamp := none, message := some (("boom").toList) }] =
    Except.error (("APIConnectionError").toList) := by rfl

theorem wit_C1_failure_isolation :
    ∃ vs, classify_cloudwatch_logs_groq
      (Except.ok { create := fun _ => Except.ok (("not json").toList) })
      [{ timestamp := none, message := none }] = Except.ok vs := by
  exact (thm_C1_failure_isolation
    { invoke := fun _ => Except.ok [] } { logEvents := [] }
    { read_tf_files := Except.ok ([], []), unified_diff := fun _ _ => [],
      llm := { invoke := fun _ => Except.ok [] } }
    [] { research := fun _ => Except.ok none,
         get_research := fun _ _ => Except.ok
           { status := [], answer := [], content := [] } }
    (Except.error []) []
    { create := fun _ => Except.ok (("not json").toList) }
    [{ timestamp := none, message := none }]).2.2.2.2
    (fun m => ⟨_, rfl⟩)

theorem dropWhile_append_all (p : Char → Bool) (l₁ l₂ : List Char)
    (h : ∀ c ∈ l₁, p c = true) :
    (l₁ ++ l₂).dropWhile p = l₂.dropWhile p := by
  induction l₁ with
  | nil => rfl
  | cons a tl ih =>
    rw [List.cons_append, List.dropWhile_cons, if_pos (h a (List.mem_cons_self a tl))]
    exact ih (fun c hc => h c (List.mem_cons_of_mem a hc))

theorem bracesSlice_of_wrapped (pre s post : List Char)
    (hpre : lbrace ∉ pre) (hpost : rbrace ∉ post)
    (hhead : ∃ s1, s = lbrace :: s1) (hlast : ∃ s2, s = s2 ++ [rbrace]) :
    bracesSlice (pre ++ s ++ post) = s := by
  obtain ⟨s1, hs1⟩ := hhead
  obtain ⟨s2, hs2⟩ := hlast
  unfold bracesSlice
  have hpre2 : ∀ c ∈ pre, (c != lbrace) = true := by
    intro c hc
    have hne : c ≠ lbrace := fun he => hpre (by rw [← he]; exact hc)
    simpa using hne
  have hpost2 : ∀ c ∈ post.reverse, (c != rbrace) = true := by
    intro c hc
    have hne : c ≠ rbrace := fun he => hpost (by rw [← he]; exact List.mem_reverse.mp hc)
    simpa using hne
  have hstep1 : (pre ++ s ++ post).dropWhile (fun c => c != lbrace) = s ++ post := by
    rw [List.append_assoc, dropWhile_append_all _ pre (s ++ post) hpre2]
    rw [hs1, List.cons_append, List.dropWhile_cons, if_neg (by simp)]
  rw [hstep1]
  have hstep2 : (s ++ post).reverse.dropWhile (fun c => c != rbrace) = s.reverse := by
    rw [List.reverse_append, dropWhile_append_all _ post.reverse s.reverse hpost2]
    rw [hs2, List.reverse_append, List.reverse_singleton, List.singleton_append,
      List.dropWhile_cons, if_neg (by simp)]
  rw [hstep2, List.reverse_reverse]

/-- C5 amended: the structured-answer extractor never raises; on text
missing a left or right brace it returns the empty result, on text whose
first-brace-to-last-brace slice fails to parse it returns the empty
result, and on text consisting of one well-formed JSON object surrounded
by brace-free prose (no left brace in the leading prose, no right brace in
the trailing prose) it returns that object, parsed from the slice between
the first left brace and the last right brace. -/
theorem thm_C5_extractor (t pre s post : List Char) (o : List (List Char × JVal)) :
    (lbrace ∉ t ∨ rbrace ∉ t → _extract_json_from_response t = []) ∧
    (jsonLoads (bracesSlice t) = none → _extract_json_from_response t = []) ∧
    (lbrace ∉ pre → rbrace ∉ post →
      (∃ s1, s = lbrace :: s1) → (∃ s2, s = s2 ++ [rbrace]) →
      jsonLoads s = some (JVal.obj o) →
      _extract_json_from_response (pre ++ s ++ post) = o) := by
  refine ⟨?_, ?_, ?_⟩
  · intro h
    unfold _extract_json_from_response
    rw [if_neg (fun hc => h.elim (fun h1 => h1 hc.1) (fun h2 => h2 hc.2))]
  · intro h
    by_cases hg : lbrace ∈ t ∧ rbrace ∈ t
    · unfold _extract_json_from_response
      rw [if_pos hg, h]
    · unfold _extract_json_from_response
      rw [if_neg hg]
  · intro hpre hpost hhead hlast hjson
    have hmem1 : lbrace ∈ pre ++ s ++ post := by
      obtain ⟨s1, hs1⟩ := hhead
      rw [hs1]
      simp
    have hmem2 : rbrace ∈ pre ++ s ++ post := by
      obtain ⟨s2, hs2⟩ := hlast
      rw [hs2]
      simp
    unfold _extract_json_from_response
    rw [if_pos ⟨hmem1, hmem2⟩,
      bracesSlice_of_wrapped pre s post hpre hpost hhead hlast, hjson]

/-- C5 counterexample: the claim fails in both directions at concrete
inputs.  First, a text with unbalanced braces (one left brace, two right
braces) on which the extractor returns a non-empty object rather than the
claimed empty result.  Second, a text that contains exactly one well-formed
JSON object surrounded by prose, but whose leading prose contains a left
brace, on which the extractor returns the empty result rather than the
claimed object (the trailing parse confirms the embedded object is
well-formed on its own). -/
theorem cex_C5_extractor :
    _extract_json_from_response (("\x7d\x7b\"a\": 1\x7d").toList) =
      [(("a").toList, JVal.num (("1").toList))] ∧
    (("\x7d\x7b\"a\": 1\x7d").toList.count lbrace = 1 ∧
      ("\x7d\x7b\"a\": 1\x7d").toList.count rbrace = 2) ∧
    _extract_json_from_response (("prose \x7b here \x7b\"x\": 1\x7d tail").toList) =
      [] ∧
    jsonLoads (("\x7b\"x\": 1\x7d").toList) =
      some (JVal.obj [(("x").toList, JVal.num (("1").toList))]) := by
  exact ⟨rfl, ⟨rfl, rfl⟩, rfl, rfl⟩

theorem wit_C5_extractor :
    _extract_json_from_response (("Answer: \x7b\"a\": 1\x7d done.").toList) =
      [(("a").toList, JVal.num (("1").toList))] := by
  have h := (thm_C5_extractor [] (("Answer: ").toList)
      (("\x7b\"a\": 1\x7d").toList) ((" done.").toList)
      [(("a").toList, JVal.num (("1").toList))]).2.2
    (by decide) (by decide)
    ⟨(("\"a\": 1\x7d").toList), rfl⟩ ⟨(("\x7b\"a\": 1").toList), rfl⟩ rfl
  exact h

theorem fb_sev_critical (la : LogAnalysis) (ma : MetricsAnalysis)
    (da : DeploymentAnalysis) (ha : ma.alerts ≠ [])
    (hs : ma.status = some (("critical").toList)) :
    (fb_issues_severity la ma da).2 = ("Critical").toList := by
  have hCL : ¬(("Critical").toList = ("Low").toList) := by decide
  simp only [fb_issues_severity]
  rw [if_pos ha, if_pos hs, if_neg (fun hc => hCL hc.2)]

theorem fb_sev_degraded (la : LogAnalysis) (ma : MetricsAnalysis)
    (da : DeploymentAnalysis) (ha : ma.alerts ≠ [])
    (hs : ma.status = some (("degraded").toList)) :
    (fb_issues_severity la ma da).2 = ("High").toList := by
  have hdc : ¬(("degraded").toList = ("critical").toList) := by decide
  have hHC : ¬(("High").toList = ("Critical").toList) := by decide
  have hHL : ¬(("High").toList = ("Low").toList) := by decide
  have hLC : ¬(("Low").toList = ("Critical").toList) := by decide
  have hncrit : ¬(ma.status = some (("critical").toList)) := by
    rw [hs]
    intro h
    exact hdc (Option.some.inj h)
  have houter : ¬((da.risk_level = ("High").toList ∨
      da.risk_level = ("Medium").toList) ∧
      ("High").toList = ("Low").toList) := fun hc => hHL hc.2
  simp only [fb_issues_severity]
  rw [if_pos ha, if_neg hncrit]
  by_cases hc1 : la.issues ≠ [] ∧ la.issues.any (fun i =>
      mentions (("memory").toList) i || mentions (("error").toList) i) = true
  · rw [if_pos hc1,
      if_pos (show ma.status = some (("degraded").toList) ∧
        ¬(("High").toList = ("Critical").toList) from ⟨hs, hHC⟩),
      if_neg houter]
  · rw [if_neg hc1,
      if_pos (show ma.status = some (("degraded").toList) ∧
        ¬(("Low").toList = ("Critical").toList) from ⟨hs, hLC⟩),
      if_neg houter]

theorem fb_sev_high_of_kw (la : LogAnalysis) (ma : MetricsAnalysis)
    (da : DeploymentAnalysis)
    (hkw : la.issues.any (fun i =>
      mentions (("memory").toList) i || mentions (("error").toList) i) = true) :
    (fb_issues_severity la ma da).2 = ("High").toList ∨
    (fb_issues_severity la ma da).2 = ("Critical").toList := by
  have hne : la.issues ≠ [] := by
    intro h0
    rw [h0] at hkw
    simp at hkw
  have hHC : ¬(("High").toList = ("Critical").toList) := by decide
  have hHL : ¬(("High").toList = ("Low").toList) := by decide
  have hCL : ¬(("Critical").toList = ("Low").toList) := by decide
  have hc1 : la.issues ≠ [] ∧ la.issues.any (fun i =>
      mentions (("memory").toList) i || mentions (("error").toList) i) = true :=
    ⟨hne, hkw⟩
  simp only [fb_issues_severity]
  rw [if_pos hc1]
  by_cases halerts : ma.alerts ≠ []
  · rw [if_pos halerts]
    by_cases hcrit : ma.status = some (("critical").toList)
    · rw [if_pos hcrit]
      right
      rw [if_neg (fun hc => hCL hc.2)]
    · rw [if_neg hcrit]
      by_cases hdegc : ma.status = some (("degraded").toList) ∧
          ¬(("High").toList = ("Critical").toList)
      · rw [if_pos hdegc]
        left
        rw [if_neg (fun hc => hHL hc.2)]
      · rw [if_neg hdegc]
        left
        rw [if_neg (fun hc => hHL hc.2)]
  · rw [if_neg halerts]
    left
    rw [if_neg (fun hc => hHL hc.2)]

/-- C6 amended: in the fallback synthesis path, severity is escalated to
"Critical" when metric alerts are present and the metrics status is
critical, and to at least "High" when any log issue mentions the memory or
error keywords, or when metric alerts are present with a degraded metrics
status.  The mere presence of a degraded task does not escalate severity
(see the counterexample: a degraded log task with empty issues leaves
severity at "Low"). -/
theorem thm_C6_fallback_severity (la : LogAnalysis) (ma : MetricsAnalysis)
    (da : DeploymentAnalysis) (err : List Char) :
    (ma.alerts ≠ [] → ma.status = some (("critical").toList) →
      (_fallback_synthesis la ma da err).severity = ("Critical").toList) ∧
    (la.issues.any (fun i => mentions (("memory").toList) i ||
        mentions (("error").toList) i) = true →
      (_fallback_synthesis la ma da err).severity = ("High").toList ∨
      (_fallback_synthesis la ma da err).severity = ("Critical").toList) ∧
    (ma.alerts ≠ [] → ma.status = some (("degraded").toList) →
      (_fallback_synthesis la ma da err).severity = ("High").toList) := by
  refine ⟨?_, ?_, ?_⟩
  · intro ha hs
    exact fb_sev_critical la ma da ha hs
  · intro hkw
    exact fb_sev_high_of_kw la ma da hkw
  · intro ha hs
    exact fb_sev_degraded la ma da ha hs

/-- C6 counterexample: a degraded task is present (the log analysis carries
an error and empty issues, exactly what a degraded `LogAgent.analyze`
produces) while metrics and deployment are healthy, yet fallback synthesis
reports severity "Low", not the claimed "High". -/
theorem cex_C6_no_degraded_escalation :
    (_fallback_synthesis
      { issues := [], error := some (("LLM Analysis failed").toList) }
      { alerts := [], status := none, error := none }
      { risk_level := ("Low").toList, changes := [], error := none }
      (("synthesis backend down").toList)).severity = ("Low").toList ∧
    (LogAnalysis.error
      { issues := [], error := some (("LLM Analysis failed").toList) }).isSome =
      true := by
  exact ⟨rfl, rfl⟩

theorem wit_C6_fallback_severity :
    (_fallback_synthesis
      { issues := [], error := none }
      { alerts := [(("HighCPU").toList)], status := some (("critical").toList),
        error := none }
      { risk_level := ("Low").toList, changes := [], error := none }
      (("parse failure").toList)).severity = ("Critical").toList := by
  exact (thm_C6_fallback_severity
    { issues := [], error := none }
    { alerts := [(("HighCPU").toList)], status := some (("critical").toList),
      error := none }
    { risk_level := ("Low").toList, changes := [], error := none }
    (("parse failure").toList)).1 (by simp) rfl

/-- C7 amended: in the fallback synthesis path, root_cause is the
memory-exhaustion-due-to-configuration statement when some collected issue
mentions memory and the deployment changes contain memory_size; when a
memory issue is present without a memory_size change it is the
memory-exhaustion-check-leaks statement (not the generic one the claim
states); when no collected issue mentions memory it is the generic
manual-investigation statement.  Severity is at least "High" (hence at
least "Medium") when the memory mention comes from a log issue; a memory
mention arising only from metric alert text does not by itself raise
severity (see the counterexample). -/
theorem thm_C7_fallback_root_cause (la : LogAnalysis) (ma : MetricsAnalysis)
    (da : DeploymentAnalysis) (err : List Char) :
    ((fb_issues_severity la ma da).1.any
        (fun i => mentions (("memory").toList) i) = true →
      ((("memory_size").toList ∈ da.changes →
        (_fallback_synthesis la ma da err).root_cause =
          ("Memory exhaustion likely caused by recent memory_size reduction in deployment").toList) ∧
      (("memory_size").toList ∉ da.changes →
        (_fallback_synthesis la ma da err).root_cause =
          ("Memory exhaustion detected - check for memory leaks or increased load").toList))) ∧
    ((fb_issues_severity la ma da).1.any
        (fun i => mentions (("memory").toList) i) = false →
      (_fallback_synthesis la ma da err).root_cause =
        ("Unable to determine root cause - manual investigation required").toList) ∧
    (la.issues.any (fun i => mentions (("memory").toList) i) = true →
      (_fallback_synthesis la ma da err).severity = ("High").toList ∨
      (_fallback_synthesis la ma da err).severity = ("Critical").toList) := by
  have hrc : (_fallback_synthesis la ma da err).root_cause =
      fb_root_cause (fb_issues_severity la ma da).1 da.changes := rfl
  refine ⟨?_, ?_, ?_⟩
  · intro hmem
    constructor
    · intro hms
      rw [hrc]
      unfold fb_root_cause
      rw [if_pos hmem, if_pos hms]
    · intro hms
      rw [hrc]
      unfold fb_root_cause
      rw [if_pos hmem, if_neg hms]
  · intro hmem
    have hcond : ¬((fb_issues_severity la ma da).1.any
        (fun i => mentions (("memory").toList) i) = true) := by
      rw [hmem]
      decide
    rw [hrc]
    unfold fb_root_cause
    rw [if_neg hcond]
  · intro hmem
    have hkw : la.issues.any (fun i => mentions (("memory").toList) i ||
        mentions (("error").toList) i) = true := by
      rw [List.any_eq_true] at hmem ⊢
      obtain ⟨x, hx, hpx⟩ := hmem
      refine ⟨x, hx, ?_⟩
      rw [hpx]
      rfl
    exact fb_sev_high_of_kw la ma da hkw

/-- C7 counterexample: first, with a memory-mentioning log issue and no
memory_size change, root_cause is the memory-exhaustion-check-leaks
statement, not the generic manual-investigation statement the claim's
"otherwise" requires.  Second, when the only memory mention comes from a
metric alert while the deployment changes do contain memory_size, the
memory-plus-diff case holds yet severity stays "Low", below the claimed
"Medium". -/
theorem cex_C7_root_cause :
    (_fallback_synthesis
      { issues := [("out of memory error").toList], error := none }
      { alerts := [], status := none, error := none }
      { risk_level := ("Low").toList, changes := [], error := none }
      (("down").toList)).root_cause =
      ("Memory exhaustion detected - check for memory leaks or increased load").toList ∧
    (_fallback_synthesis
      { issues := [], error := none }
      { alerts := [("MemoryUsed").toList], status := none, error := none }
      { risk_level := ("Low").toList, changes := [("memory_size").toList],
        error := none }
      (("down").toList)).root_cause =
      ("Memory exhaustion likely caused by recent memory_size reduction in deployment").toList ∧
    (_fallback_synthesis
      { issues := [], error := none }
      { alerts := [("MemoryUsed").toList], status := none, error := none }
      { risk_level := ("Low").toList, changes := [("memory_size").toList],
        error := none }
      (("down").toList)).severity = ("Low").toList := by
  exact ⟨rfl, rfl, rfl⟩

theorem wit_C7_fallback_root_cause :
    (_fallback_synthesis
      { issues := [("out of memory").toList], error := none }
      { alerts := [], status := none, error := none }
      { risk_level := ("Low").toList, changes := [("memory_size").toList],
        error := none }
      (("down").toList)).root_cause =
      ("Memory exhaustion likely caused by recent memory_size reduction in deployment").toList := by
  exact ((thm_C7_fallback_root_cause
    { issues := [("out of memory").toList], error := none }
    { alerts := [], status := none, error := none }
    { risk_level := ("Low").toList, changes := [("memory_size").toList],
      error := none }
    (("down").toList)).1 rfl).1 (List.mem_singleton.mpr rfl)

/-- C10: whenever the log task degrades (its backend call raises, or JSON
parsing of the response fails), `LogAgent.analyze` returns the error dict
whose "issues" entry is the empty list alongside the error string; and
fallback synthesis applied to a log analysis with empty issues behaves
exactly as on an empty healthy log analysis — it finds no log issues and
never escalates severity (or changes the root cause) on the basis of log
issues. -/
theorem thm_C10_log_degradation (b : LLMBackend) (p : LogPayload) (e : PyErr)
    (ma : MetricsAnalysis) (da : DeploymentAnalysis) (err : List Char) :
    (b.invoke (logsText p) = Except.error e →
      LogAgent.analyze b p = Except.ok (logErrDict e)) ∧
    (∀ content, b.invoke (logsText p) = Except.ok content →
      jsonLoads (stripFences content) = none →
      LogAgent.analyze b p = Except.ok (logErrDict jsonDecodeErr)) ∧
    (logErrDict e =
      JVal.obj [(("error").toList, JVal.str e),
        (("issues").toList, JVal.arr [])]) ∧
    (∀ la : LogAnalysis, la.issues = [] →
      fb_issues_severity la ma da =
        fb_issues_severity { issues := [], error := none } ma da ∧
      (_fallback_synthesis la ma da err).severity =
        (_fallback_synthesis { issues := [], error := none } ma da err).severity ∧
      (_fallback_synthesis la ma da err).root_cause =
        (_fallback_synthesis { issues := [], error := none } ma da err).root_cause) := by
  refine ⟨?_, ?_, rfl, ?_⟩
  · intro h
    simp [LogAgent.analyze, h]
  · intro content h hj
    simp [LogAgent.analyze, h, hj]
  · intro la hla
    obtain ⟨is0, er0⟩ := la
    have his : is0 = [] := hla
    subst his
    exact ⟨rfl, rfl, rfl⟩

theorem wit_C10_log_degradation :
    LogAgent.analyze { invoke := fun _ => Except.error (("boom").toList) }
      { logEvents := [] } =
    Except.ok (logErrDict (("boom").toList)) := by
  exact (thm_C10_log_degradation
    { invoke := fun _ => Except.error (("boom").toList) }
    { logEvents := [] } (("boom").toList)
    { alerts := [], status := none, error := none }
    { risk_level := ("Low").toList, changes := [], error := none }
    []).1 rfl
